import Mathlib

/-!
Verification development for the scraping job queue subsystem
(`QueueManager` in `src/backend/src/services/DocumentToPdfService.ts`).

The `QueueManager` class wires per-source BullMQ queues and workers:
`createQueueForSource` configures each queue with
`attempts: 3`, `backoff: { type: 'exponential', delay: 5000 }`,
`removeOnComplete: 50`, `removeOnFail: 100`, and each worker with
`concurrency: 1`.  The shallow embedding below models one such queue as an
explicit state (`SourceQueue`) together with executable transition
functions, and the manager as a list of such queues with the
`addJob` / `getJobStatus` / `cancelJob` / `getQueueStats` operations
translated from the source.

Where behaviour is decided by code outside `src/` (the BullMQ library as
configured, the `JobStatus` enum from `@/scrapers/base/types`, and the
`sseController` push channel), the embedding follows the documented
contract of that code; each such definition carries a doc comment saying
what it models.
-/

namespace JuridicaNews

/-- Modelled from the spec: the job lifecycle states of
`JobStatus` from `@/scrapers/base/types` (file not in the corpus);
the spec lists `PENDING | RUNNING | COMPLETED | FAILED`. -/
inductive JobStatus where
  | PENDING
  | RUNNING
  | COMPLETED
  | FAILED
deriving DecidableEq, Repr

/-- Result payload of a successful `orchestrator.extractDocuments` call,
as consumed by `processScrapingJob` (fields `documents`, `totalFound`,
`extractionTime`); documents themselves are opaque. -/
structure OrchestratorResult where
  documents : List String
  totalFound : Nat
  extractionTime : Nat
deriving DecidableEq, Repr

/-- Resolution value of `orchestrator.extractDocuments`: a jobId plus an
optional result object (the code reads `result.result?.…`). -/
structure ExtractionOutcome where
  jobId : String
  result : Option OrchestratorResult
deriving DecidableEq, Repr

/-- Return value of `processScrapingJob` on success:
`{ success, jobId, documentsCount, extractionTime }`. -/
structure ProcessResult where
  success : Bool
  jobId : String
  documentsCount : Nat
  extractionTime : Nat
deriving DecidableEq, Repr

/-- Modelled from the spec: one event pushed through
`sseController.sendEvent(userId, 'scraping_progress', payload)`
(the sse controller file is not in the corpus; the spec describes it as a
fire-and-forget per-user push channel).  The payload fields are the ones
`QueueManager` sends. -/
structure SseEvent where
  userId : String
  eventType : String
  jobId : String
  status : JobStatus
  progress : Nat
  message : String
  sourceId : String
  documentsFound : Option Nat := none
  documentsProcessed : Option Nat := none
deriving DecidableEq, Repr

/-- One job record as stored in a source's BullMQ queue.  `index` is the
insertion sequence number inside the queue (used for FIFO tie-breaking),
`availableAt` the earliest time the waiting job may be dequeued (creation
time, or failure time plus backoff delay after a retry). -/
structure QueueJob where
  jobId : String
  sourceId : String
  parameters : String
  userId : Option String
  priority : Nat
  index : Nat
  availableAt : Nat
  progress : Nat
  attemptsMade : Nat
  failedReason : Option String
  returnvalue : Option ProcessResult
  timestamp : Nat
  processedOn : Option Nat
  finishedOn : Option Nat
deriving DecidableEq, Repr

/-- State of one source's queue/worker pair, partitioned the way BullMQ
partitions jobs (waiting-or-delayed, active, completed, failed). -/
structure SourceQueue where
  sourceId : String
  waiting : List QueueJob
  active : List QueueJob
  completed : List QueueJob
  failed : List QueueJob
  nextIndex : Nat
deriving DecidableEq, Repr

/-- Option `attempts: 3` of `createQueueForSource`. -/
def maxAttempts : Nat := 3

/-- Option `backoff: { type: 'exponential', delay: 5000 }` of
`createQueueForSource`. -/
def backoffBaseDelay : Nat := 5000

/-- Worker option `concurrency: 1` of `createQueueForSource`. -/
def concurrency : Nat := 1

/-- Option `removeOnComplete: 50` of `createQueueForSource`. -/
def removeOnComplete : Nat := 50

/-- Option `removeOnFail: 100` of `createQueueForSource`. -/
def removeOnFail : Nat := 100

/-- Empty queue for a source, as created by `createQueueForSource`. -/
def emptySourceQueue (sid : String) : SourceQueue :=
  { sourceId := sid, waiting := [], active := [], completed := [], failed := [],
    nextIndex := 0 }

/-- BullMQ retention: keep the most recent `n` entries of a terminal
partition, evicting oldest first (`removeOnComplete` / `removeOnFail`). -/
def trimTo (n : Nat) (l : List QueueJob) : List QueueJob :=
  if l.length ≤ n then l else l.drop (l.length - n)

/-- Whether a waiting job's backoff delay has expired at time `now`. -/
def eligible (now : Nat) (j : QueueJob) : Bool :=
  j.availableAt ≤ now

/-- Dequeue precedence of the BullMQ queue as driven by the `priority`
option that `addJob` passes (`priority: priority || 0`): standard jobs
(priority 0) are processed before jobs in the prioritized set, and within
the prioritized set a lower number is a higher priority; insertion order
(FIFO) breaks ties.  Thus `a` precedes `b` iff `(a.priority, a.index)` is
lexicographically smaller. -/
def rankLt (a b : QueueJob) : Bool :=
  a.priority < b.priority || (a.priority == b.priority && a.index < b.index)

/-- Pick the better of two jobs under `rankLt` (used to fold a minimum). -/
def better (a b : QueueJob) : QueueJob :=
  if rankLt b a then b else a

/-- The job the worker dequeues next at time `now`: the eligible waiting
job of minimal `(priority, index)`; `none` when no waiting job is
eligible. -/
def pickNext (now : Nat) (ws : List QueueJob) : Option QueueJob :=
  match ws.filter (eligible now) with
  | [] => none
  | j :: rest => some (rest.foldl better j)

/-- Events `addJob` sends when the submitting user is known: the
`PENDING` notification with progress 0. -/
def pendingEvents (j : QueueJob) : List SseEvent :=
  match j.userId with
  | some u =>
      [{ userId := u, eventType := "scraping_progress", jobId := j.jobId,
         status := JobStatus.PENDING, progress := 0,
         message := "Trabajo agregado a la cola", sourceId := j.sourceId }]
  | none => []

/-- Effect of `queue.add(..., { jobId, priority: priority || 0, delay: 0 })`
inside `QueueManager.addJob`: append a fresh waiting entry. -/
def enqueueJob (q : SourceQueue) (jid ps : String) (u : Option String)
    (p : Nat) (now : Nat) : SourceQueue :=
  { q with
    waiting := q.waiting ++
      [{ jobId := jid, sourceId := q.sourceId, parameters := ps, userId := u,
         priority := p, index := q.nextIndex, availableAt := now,
         progress := 0, attemptsMade := 0, failedReason := none,
         returnvalue := none, timestamp := now, processedOn := none,
         finishedOn := none }],
    nextIndex := q.nextIndex + 1 }

/-- Events the start of `processScrapingJob` sends when the user is known:
the `RUNNING` notification with progress 10. -/
def runningEvents (j : QueueJob) : List SseEvent :=
  match j.userId with
  | some u =>
      [{ userId := u, eventType := "scraping_progress", jobId := j.jobId,
         status := JobStatus.RUNNING, progress := 10,
         message := "Iniciando procesamiento...", sourceId := j.sourceId }]
  | none => []

/-- Worker dequeue step: if the source's single concurrency slot is free
and some waiting job is eligible, move it to the active partition; the
processor (`processScrapingJob`) immediately does `job.updateProgress(10)`
and sends the `RUNNING` notification.  `attemptsMade` counts execution
starts. -/
def startNext (q : SourceQueue) (now : Nat) : SourceQueue × List SseEvent :=
  if q.active.length < concurrency then
    match pickNext now q.waiting with
    | none => (q, [])
    | some j =>
        let j' : QueueJob :=
          { j with attemptsMade := j.attemptsMade + 1, progress := 10,
                   processedOn := some (j.processedOn.getD now) }
        ({ q with waiting := q.waiting.filter (fun x => x.index ≠ j.index),
                  active := q.active ++ [j'] },
         runningEvents j')
  else (q, [])

/-- Events the success path of `processScrapingJob` sends when the user is
known: the `COMPLETED` notification with progress 100 and document
counts. -/
def completedEvents (j : QueueJob) (res : ExtractionOutcome) : List SseEvent :=
  match j.userId with
  | some u =>
      [{ userId := u, eventType := "scraping_progress", jobId := j.jobId,
         status := JobStatus.COMPLETED, progress := 100,
         message := "Completado - " ++
           toString ((res.result.map (fun r => r.documents.length)).getD 0) ++
           " documentos",
         sourceId := j.sourceId,
         documentsFound := res.result.map (fun r => r.totalFound),
         documentsProcessed := res.result.map (fun r => r.documents.length) }]
  | none => []

/-- Events the catch block of `processScrapingJob` sends when the user is
known: a `FAILED` notification with progress 0 and message
`Error: …` — the code sends this on every caught orchestrator rejection,
whether or not attempts remain. -/
def failedEvents (j : QueueJob) (msg : String) : List SseEvent :=
  match j.userId with
  | some u =>
      [{ userId := u, eventType := "scraping_progress", jobId := j.jobId,
         status := JobStatus.FAILED, progress := 0,
         message := "Error: " ++ msg, sourceId := j.sourceId }]
  | none => []

/-- Completion of the in-flight `orchestrator.extractDocuments` call for
the active job.  On resolution `processScrapingJob` sets progress 100,
sends the `COMPLETED` notification and returns the `ProcessResult`; BullMQ
moves the job to the completed partition (retention `removeOnComplete`).
On rejection the catch block sends the `FAILED` notification and
rethrows; BullMQ then either re-inserts the job into the waiting
partition with the exponential backoff delay
`backoffBaseDelay * 2 ^ (attemptsMade - 1)` while `attemptsMade` is below
`attempts` (Modelled from the spec: progress resets to 0 for the new
attempt), or, with attempts exhausted, records `failedReason` and moves
the job to the failed partition (retention `removeOnFail`). -/
def finishActive (q : SourceQueue) (outcome : Except String ExtractionOutcome)
    (now : Nat) : SourceQueue × List SseEvent :=
  match q.active with
  | [] => (q, [])
  | j :: rest =>
      match outcome with
      | Except.ok res =>
          let j' : QueueJob :=
            { j with progress := 100, finishedOn := some now,
                     returnvalue := some
                       { success := true, jobId := res.jobId,
                         documentsCount :=
                           (res.result.map (fun r => r.documents.length)).getD 0,
                         extractionTime :=
                           (res.result.map (fun r => r.extractionTime)).getD 0 } }
          ({ q with active := rest,
                    completed := trimTo removeOnComplete (q.completed ++ [j']) },
           completedEvents j res)
      | Except.error msg =>
          let evs := failedEvents j msg
          if j.attemptsMade < maxAttempts then
            let delay := backoffBaseDelay * 2 ^ (j.attemptsMade - 1)
            ({ q with active := rest,
                      waiting := q.waiting ++
                        [{ j with progress := 0, availableAt := now + delay }] },
             evs)
          else
            ({ q with active := rest,
                      failed := trimTo removeOnFail (q.failed ++
                        [{ j with failedReason := some msg,
                                  finishedOn := some now }]) },
             evs)

/-- Presence of a job in any partition of a queue (BullMQ `queue.getJob`
finds a job in whatever state it is in). -/
def getJobInQueue (q : SourceQueue) (jid : String) : Option QueueJob :=
  (q.waiting.find? (fun j => j.jobId == jid)).orElse fun _ =>
    (q.active.find? (fun j => j.jobId == jid)).orElse fun _ =>
      (q.completed.find? (fun j => j.jobId == jid)).orElse fun _ =>
        q.failed.find? (fun j => j.jobId == jid)

/-- Effect of `job.remove()` on the owning queue for a non-active job:
the record is deleted from every partition it may be stored in. -/
def removeFromQueue (q : SourceQueue) (jid : String) : SourceQueue :=
  { q with
    waiting := q.waiting.filter (fun j => j.jobId ≠ jid),
    completed := q.completed.filter (fun j => j.jobId ≠ jid),
    failed := q.failed.filter (fun j => j.jobId ≠ jid) }

/-- Queue-level effect of `QueueManager.cancelJob` reaching this queue:
if `queue.getJob` finds the job and it is not active, `job.remove()`
deletes it; if it is active (locked), `job.remove()` throws and the catch
block leaves the queue untouched. -/
def cancelInQueue (q : SourceQueue) (jid : String) :
    Option SourceQueue :=
  match getJobInQueue q jid with
  | none => none
  | some _ =>
      if q.active.any (fun j => j.jobId == jid) then none
      else some (removeFromQueue q jid)

/-- One external stimulus to a source's queue/worker pair. -/
inductive QCmd where
  | enqueue (jid ps : String) (u : Option String) (p : Nat) (now : Nat)
  | start (now : Nat)
  | finish (outcome : Except String ExtractionOutcome) (now : Nat)
  | cancel (jid : String)
deriving Repr

/-- Apply one stimulus to a queue, returning the new state and the SSE
events published to the submitting user. -/
def applyCmd (q : SourceQueue) : QCmd → SourceQueue × List SseEvent
  | QCmd.enqueue jid ps u p now =>
      let q' := enqueueJob q jid ps u p now
      (q', match q'.waiting.getLast? with
           | some j => pendingEvents j
           | none => [])
  | QCmd.start now => startNext q now
  | QCmd.finish outcome now => finishActive q outcome now
  | QCmd.cancel jid =>
      match cancelInQueue q jid with
      | some q' => (q', [])
      | none => (q, [])

/-- Run a sequence of stimuli, accumulating the published events. -/
def runQ (q : SourceQueue) : List QCmd → SourceQueue × List SseEvent
  | [] => (q, [])
  | c :: cs =>
      let r := applyCmd q c
      let r' := runQ r.1 cs
      (r'.1, r.2 ++ r'.2)

/-- State of the `QueueManager`: the `queues` map (one entry per source
configured at `initialize`). -/
structure ManagerState where
  queues : List SourceQueue
deriving Repr

/-- Lookup of `this.queues.get(sourceId)`. -/
def findQueue (m : ManagerState) (sid : String) : Option SourceQueue :=
  m.queues.find? (fun q => q.sourceId == sid)

/-- Embeds `QueueManager.generateJobId`:
`${sourceId}_${Date.now()}_${Math.random().toString(36).substr(2, 9)}`.
The current time and the rendered random suffix are inputs of the model
(the suffix `Math.random().toString(36).substr(2, 9)` is a string over
the base-36 alphabet, hence never contains an underscore). -/
def generateJobId (sourceId : String) (now : Nat) (randSuffix : String) :
    String :=
  sourceId ++ "_" ++ toString now ++ "_" ++ randSuffix

/-- Replace one source's queue inside the manager state. -/
def setQueue (m : ManagerState) (q' : SourceQueue) : ManagerState :=
  { queues := m.queues.map (fun x => if x.sourceId == q'.sourceId then q' else x) }

/-- Embeds `QueueManager.addJob(sourceId, parameters, userId?, priority?)`:
when `sourceId` has no queue it throws
`Cola no encontrada para fuente: …` (nothing is enqueued, no event is
sent); otherwise it generates the jobId, adds the job with
`priority: priority || 0` and `delay: 0`, sends the `PENDING`
notification when `userId` is present, and returns the jobId. -/
def addJob (m : ManagerState) (sourceId ps : String) (userId : Option String)
    (priority : Option Nat) (now : Nat) (randSuffix : String) :
    Except String (String × ManagerState × List SseEvent) :=
  match findQueue m sourceId with
  | none => Except.error ("Cola no encontrada para fuente: " ++ sourceId)
  | some q =>
      let jid := generateJobId sourceId now randSuffix
      let q' := enqueueJob q jid ps userId (priority.getD 0) now
      let evs : List SseEvent :=
        match userId with
        | some u =>
            [{ userId := u, eventType := "scraping_progress", jobId := jid,
               status := JobStatus.PENDING, progress := 0,
               message := "Trabajo agregado a la cola", sourceId := sourceId }]
        | none => []
      Except.ok (jid, setQueue m q', evs)

/-- Name of the partition a job of a queue sits in, as `job.getState()`
reports it (the waiting partition merges BullMQ's waiting and delayed
sets). -/
def partitionOf (q : SourceQueue) (jid : String) : Option String :=
  if q.waiting.any (fun j => j.jobId == jid) then some "waiting"
  else if q.active.any (fun j => j.jobId == jid) then some "active"
  else if q.completed.any (fun j => j.jobId == jid) then some "completed"
  else if q.failed.any (fun j => j.jobId == jid) then some "failed"
  else none

/-- Normalized view `QueueManager.getJobStatus` builds from a found job. -/
structure JobStatusView where
  id : String
  sourceId : String
  state : String
  progress : Nat
  returnValue : Option ProcessResult
  failedReason : Option String
  processedOn : Option Nat
  finishedOn : Option Nat
  timestamp : Nat
  attempts : Nat
  maxAttemptsOpt : Nat
deriving DecidableEq, Repr

/-- View construction inside `getJobStatus`. -/
def statusView (q : SourceQueue) (j : QueueJob) : JobStatusView :=
  { id := j.jobId, sourceId := q.sourceId,
    state := (partitionOf q j.jobId).getD "unknown",
    progress := j.progress, returnValue := j.returnvalue,
    failedReason := j.failedReason, processedOn := j.processedOn,
    finishedOn := j.finishedOn, timestamp := j.timestamp,
    attempts := j.attemptsMade, maxAttemptsOpt := maxAttempts }

/-- Embeds `QueueManager.getJobStatus`: scan every source's queue, return
the view of the first queue whose `getJob` finds the id, `null` when no
queue has it. -/
def getJobStatus (m : ManagerState) (jid : String) : Option JobStatusView :=
  m.queues.findSome? (fun q =>
    match getJobInQueue q jid with
    | some j => some (statusView q j)
    | none => none)

/-- Scan of `QueueManager.cancelJob` over the queues map: the first queue
in which `getJob` finds the job and `job.remove()` does not throw yields
the removal; a throw (active, locked job) is caught and the scan
continues with the remaining queues. -/
def cancelInQueues (jid : String) : List SourceQueue → Option (List SourceQueue)
  | [] => none
  | q :: qs =>
      match cancelInQueue q jid with
      | some q' => some (q' :: qs)
      | none =>
          match cancelInQueues jid qs with
          | some qs' => some (q :: qs')
          | none => none

/-- Embeds `QueueManager.cancelJob`: `true` plus the updated state when
some queue's `job.remove()` succeeded, `false` with the state unchanged
otherwise (id nowhere, or only found locked/active). -/
def cancelJob (m : ManagerState) (jid : String) : Bool × ManagerState :=
  match cancelInQueues jid m.queues with
  | some qs => (true, { queues := qs })
  | none => (false, m)

/-- One per-source entry of the object `getQueueStats` returns: either the
five counts, or the caught error's message. -/
inductive StatEntry where
  | counts (waiting active completed failed total : Nat)
  | failure (message : String)
deriving DecidableEq, Repr

/-- Per-source body of `getQueueStats`: the four partition reads
(`getWaiting` … `getFailed`) run under a try/catch; `redisFail` is the
environment oracle saying whether the backend throws for this source and
with which message. -/
def statsForSource (redisFail : String → Option String) (q : SourceQueue) :
    StatEntry :=
  match redisFail q.sourceId with
  | some msg => StatEntry.failure msg
  | none =>
      StatEntry.counts q.waiting.length q.active.length q.completed.length
        q.failed.length
        (q.waiting.length + q.active.length + q.completed.length +
          q.failed.length)

/-- Embeds `QueueManager.getQueueStats`: one entry per source; a backend
error while counting one source is captured in that source's entry and
does not disturb the others. -/
def getQueueStats (redisFail : String → Option String) (m : ManagerState) :
    List (String × StatEntry) :=
  m.queues.map (fun q => (q.sourceId, statsForSource redisFail q))

/-- All job records of a queue, across the four partitions. -/
def allJobs (q : SourceQueue) : List QueueJob :=
  q.waiting ++ q.active ++ q.completed ++ q.failed

/-- Inventory invariant tying each job's progress to its partition:
waiting jobs carry progress 0 (fresh submissions and retried attempts
alike), active jobs carry the initial `updateProgress(10)` value,
completed jobs the final `updateProgress(100)` value, and failed jobs
keep the value they had when the orchestrator call rejected (10). -/
def progressInv (q : SourceQueue) : Prop :=
  (∀ j ∈ q.waiting, j.progress = 0) ∧ (∀ j ∈ q.active, j.progress = 10) ∧
    (∀ j ∈ q.completed, j.progress = 100) ∧ (∀ j ∈ q.failed, j.progress = 10)

/-- Whether a stimulus is a (re-)submission of the given jobId. -/
def enqueuesJob (c : QCmd) (jid : String) : Bool :=
  match c with
  | QCmd.enqueue j _ _ _ _ => j == jid
  | _ => false

/-- No record with the given jobId occurs in the list. -/
def noJob (l : List QueueJob) (jid : String) : Prop :=
  ∀ j ∈ l, j.jobId ≠ jid

/-- Whether `queue.getJob(jobId)` finds the job in this queue. -/
def hasJob (q : SourceQueue) (jid : String) : Bool :=
  (getJobInQueue q jid).isSome

/-- Whether the job currently occupies the active slot of this queue
(in which case `job.remove()` throws because the job is locked). -/
def activeHas (q : SourceQueue) (jid : String) : Bool :=
  q.active.any (fun j => j.jobId == jid)

/-- One submission event: `seq` numbers the occurrence (two distinct
submissions are distinct events even when `Date.now()` and
`Math.random()` happen to return the same values). -/
structure Submission where
  seq : Nat
  sourceId : String
  time : Nat
  rand : String
deriving DecidableEq, Repr

/-- The jobId `addJob` generates for a submission. -/
def submissionJobId (s : Submission) : String :=
  generateJobId s.sourceId s.time s.rand

/-- No underscore occurs in the string (true of every
`Math.random().toString(36).substr(2, 9)` suffix, whose characters come
from the base-36 alphabet, and of every decimal timestamp rendering). -/
@[reducible] def noUnderscore (s : String) : Prop :=
  '_' ∉ s.data

/-- Queue of the C5 scenario: J1 submitted with priority 0, then J2 with
priority 5, both waiting, no dequeue yet. -/
def scenarioQueue : SourceQueue :=
  (runQ (emptySourceQueue "courts-a")
    [QCmd.enqueue "J1" "params" none 0 100,
     QCmd.enqueue "J2" "params" none 5 100]).1

/-- The waiting record of J1 in `scenarioQueue`. -/
def scenarioJ1 : QueueJob :=
  { jobId := "J1", sourceId := "courts-a", parameters := "params",
    userId := none, priority := 0, index := 0, availableAt := 100,
    progress := 0, attemptsMade := 0, failedReason := none,
    returnvalue := none, timestamp := 100, processedOn := none,
    finishedOn := none }

/-- Queue whose only job J6 has run to COMPLETED. -/
def completedQueue : SourceQueue :=
  (runQ (emptySourceQueue "css")
    [QCmd.enqueue "J6" "params" none 0 0, QCmd.start 0,
     QCmd.finish (Except.ok { jobId := "J6", result := none }) 1]).1

/-- Manager holding one source whose only job has run to COMPLETED. -/
def completedManager : ManagerState :=
  { queues := [completedQueue] }

/-- Stimulus list of the C7 witness: one submission, not yet dequeued. -/
def sampleCmds : List QCmd :=
  [QCmd.enqueue "J7" "params" (some "u7") 0 0]

/-- The waiting record produced by `sampleCmds`. -/
def sampleJob : QueueJob :=
  { jobId := "J7", sourceId := "css", parameters := "params",
    userId := some "u7", priority := 0, index := 0, availableAt := 0,
    progress := 0, attemptsMade := 0, failedReason := none,
    returnvalue := none, timestamp := 0, processedOn := none,
    finishedOn := none }

/-- Manager with two empty sources, for exercising `getQueueStats`. -/
def twoSourceManager : ManagerState :=
  { queues := [emptySourceQueue "a", emptySourceQueue "b"] }

/-- Backend oracle that throws only while counting source `b`. -/
def failOnB : String → Option String :=
  fun s => if s == "b" then some "ECONNREFUSED" else none

/-- Manager with a single configured source `css`, for the C8 witness. -/
def oneSourceManager : ManagerState :=
  { queues := [emptySourceQueue "css"] }

/-- Run of a job (submitted by user `u1`) whose first orchestrator call
rejects while two attempts remain. -/
def transientFailureRun : SourceQueue × List SseEvent :=
  runQ (emptySourceQueue "css")
    [QCmd.enqueue "J4" "params" (some "u1") 0 0, QCmd.start 0,
     QCmd.finish (Except.error "ECONNRESET") 1]

/-- An active job owned by user `u4`, mid-execution. -/
def activeJob : QueueJob :=
  { jobId := "J4a", sourceId := "css", parameters := "params",
    userId := some "u4", priority := 0, index := 0, availableAt := 0,
    progress := 10, attemptsMade := 1, failedReason := none,
    returnvalue := none, timestamp := 0, processedOn := some 0,
    finishedOn := none }

/-- Queue whose single concurrency slot is occupied by `activeJob`. -/
def activeQueue : SourceQueue :=
  { sourceId := "css", waiting := [], active := [activeJob],
    completed := [], failed := [], nextIndex := 1 }

example :
    (runQ (emptySourceQueue "css") [QCmd.enqueue "J1" "p" (some "u") 0 0,
      QCmd.start 0, QCmd.finish (Except.error "boom") 1]).1.waiting.length
      = 1 := by decide

theorem rankLt_iff (a b : QueueJob) :
    rankLt a b = true ↔
      (a.priority < b.priority ∨
        (a.priority = b.priority ∧ a.index < b.index)) := by
  simp [rankLt, Bool.or_eq_true, Bool.and_eq_true, beq_iff_eq,
    decide_eq_true_eq]

theorem rankLt_eq_false_iff (a b : QueueJob) :
    rankLt a b = false ↔
      ¬(a.priority < b.priority ∨
        (a.priority = b.priority ∧ a.index < b.index)) := by
  rw [← rankLt_iff]
  cases h : rankLt a b <;> simp

theorem foldl_better_min (l : List QueueJob) (a : QueueJob) :
    (l.foldl better a = a ∨ l.foldl better a ∈ l) ∧
      ∀ x, (x = a ∨ x ∈ l) → rankLt x (l.foldl better a) = false := by
  induction l generalizing a with
  | nil =>
      refine ⟨Or.inl rfl, ?_⟩
      intro x hx
      rcases hx with rfl | h
      · simp only [List.foldl_nil, rankLt_eq_false_iff]
        omega
      · cases h
  | cons b t ih =>
      obtain ⟨ihmem, ihmin⟩ := ih (better a b)
      rw [List.foldl_cons]
      constructor
      · rcases ihmem with h | h
        · rw [h]
          unfold better
          split
          · right; exact List.mem_cons_self b t
          · left; rfl
        · right; exact List.mem_cons_of_mem b h
      · intro x hx
        rcases hx with rfl | hx
        · -- x is the starting accumulator
          by_cases hba : rankLt b x = true
          · have hb' : better x b = b := by
              unfold better; rw [if_pos hba]
            have h1 : rankLt b (t.foldl better (better x b)) = false :=
              ihmin b (Or.inl hb'.symm)
            rw [rankLt_iff] at hba
            rw [rankLt_eq_false_iff] at h1 ⊢
            omega
          · have ha' : better x b = x := by
              unfold better; rw [if_neg hba]
            exact ihmin x (Or.inl ha'.symm)
        · rcases List.mem_cons.1 hx with rfl | hx
          · -- x is the head of the list
            by_cases hba : rankLt x a = true
            · have hb' : better a x = x := by
                unfold better; rw [if_pos hba]
              exact ihmin x (Or.inl hb'.symm)
            · have ha' : better a x = a := by
                unfold better; rw [if_neg hba]
              have h1 : rankLt a (t.foldl better (better a x)) = false :=
                ihmin a (Or.inl ha'.symm)
              have hba2 : rankLt x a = false := by
                cases h : rankLt x a
                · rfl
                · exact absurd h hba
              rw [rankLt_eq_false_iff] at h1 hba2 ⊢
              omega
          · exact ihmin x (Or.inr hx)

theorem pickNext_min (now : Nat) (ws : List QueueJob) (j : QueueJob)
    (h : pickNext now ws = some j) :
    j ∈ ws ∧ eligible now j = true ∧
      ∀ x ∈ ws, eligible now x = true → rankLt x j = false := by
  unfold pickNext at h
  cases hf : ws.filter (eligible now) with
  | nil => rw [hf] at h; cases h
  | cons hd rest =>
      rw [hf] at h
      injection h with hj
      obtain ⟨hmem, hmin⟩ := foldl_better_min rest hd
      have hjf : j ∈ ws.filter (eligible now) := by
        rw [hf]
        rcases hmem with h | h
        · rw [hj] at h; rw [h]; exact List.mem_cons_self hd rest
        · rw [hj] at h; exact List.mem_cons_of_mem hd h
      have hjw := List.mem_filter.1 hjf
      refine ⟨hjw.1, hjw.2, ?_⟩
      intro x hxw hxe
      have hxf : x ∈ ws.filter (eligible now) := List.mem_filter.2 ⟨hxw, hxe⟩
      rw [hf] at hxf
      rw [← hj]
      rcases List.mem_cons.1 hxf with rfl | hx
      · exact hmin x (Or.inl rfl)
      · exact hmin x (Or.inr hx)

theorem applyCmd_active_le (q : SourceQueue) (c : QCmd)
    (h : q.active.length ≤ concurrency) :
    ((applyCmd q c).1).active.length ≤ concurrency := by
  cases c with
  | enqueue jid ps u p now => simpa [applyCmd, enqueueJob] using h
  | start now =>
      simp only [applyCmd]
      unfold startNext
      by_cases hlt : q.active.length < concurrency
      · rw [if_pos hlt]
        simp only [concurrency] at hlt
        cases hpick : pickNext now q.waiting with
        | none => simpa using h
        | some j =>
            simp only [hpick]
            simp only [List.length_append, List.length_cons, List.length_nil,
              concurrency]
            omega
      · rw [if_neg hlt]; exact h
  | finish outcome now =>
      simp only [applyCmd]
      unfold finishActive
      cases hact : q.active with
      | nil => simp only [hact]; simp [hact, concurrency]
      | cons j rest =>
          rw [hact] at h
          simp only [List.length_cons, concurrency] at h
          cases outcome with
          | ok res =>
              simp only [hact, concurrency]
              omega
          | error msg =>
              simp only [hact]
              by_cases hm : j.attemptsMade < maxAttempts
              · rw [if_pos hm]
                simp only [concurrency]
                omega
              · rw [if_neg hm]
                simp only [concurrency]
                omega
  | cancel jid =>
      simp only [applyCmd]
      unfold cancelInQueue
      cases hg : getJobInQueue q jid with
      | none => simpa [hg] using h
      | some j =>
          simp only [hg]
          by_cases hac : q.active.any (fun x => x.jobId == jid) = true
          · simpa [hac] using h
          · simp only [hac]
            simpa [removeFromQueue] using h

theorem runQ_active_le (cmds : List QCmd) (q : SourceQueue)
    (h : q.active.length ≤ concurrency) :
    ((runQ q cmds).1).active.length ≤ concurrency := by
  induction cmds generalizing q with
  | nil => exact h
  | cons c cs ih =>
      unfold runQ
      exact ih _ (applyCmd_active_le q c h)

theorem mem_of_mem_trimTo (n : Nat) (l : List QueueJob) (j : QueueJob)
    (h : j ∈ trimTo n l) : j ∈ l := by
  unfold trimTo at h
  split at h
  · exact h
  · exact List.drop_subset _ _ h

theorem applyCmd_progressInv (q : SourceQueue) (c : QCmd)
    (h : progressInv q) : progressInv ((applyCmd q c).1) := by
  obtain ⟨hw, ha, hc, hf⟩ := h
  cases c with
  | enqueue jid ps u p now =>
      simp only [applyCmd, enqueueJob]
      refine ⟨?_, ha, hc, hf⟩
      intro j hj
      rcases List.mem_append.1 hj with hj | hj
      · exact hw j hj
      · simp only [List.mem_singleton] at hj
        subst hj; rfl
  | start now =>
      simp only [applyCmd]
      unfold startNext
      by_cases hlt : q.active.length < concurrency
      · rw [if_pos hlt]
        cases hpick : pickNext now q.waiting with
        | none => exact ⟨hw, ha, hc, hf⟩
        | some j =>
            simp only [hpick]
            refine ⟨?_, ?_, hc, hf⟩
            · intro x hx
              exact hw x (List.mem_of_mem_filter hx)
            · intro x hx
              rcases List.mem_append.1 hx with hx | hx
              · exact ha x hx
              · simp only [List.mem_singleton] at hx
                subst hx; rfl
      · rw [if_neg hlt]; exact ⟨hw, ha, hc, hf⟩
  | finish outcome now =>
      simp only [applyCmd]
      unfold finishActive
      cases hact : q.active with
      | nil => simp only [hact]; exact ⟨hw, ha, hc, hf⟩
      | cons j rest =>
          have hj10 : j.progress = 10 := by
            apply ha
            rw [hact]
            exact List.mem_cons_self j rest
          have hrest : ∀ x ∈ rest, x.progress = 10 := by
            intro x hx
            apply ha
            rw [hact]
            exact List.mem_cons_of_mem j hx
          cases outcome with
          | ok res =>
              simp only [hact]
              refine ⟨hw, hrest, ?_, hf⟩
              intro x hx
              have hx' := mem_of_mem_trimTo _ _ _ hx
              rcases List.mem_append.1 hx' with hx2 | hx2
              · exact hc x hx2
              · simp only [List.mem_singleton] at hx2
                subst hx2; rfl
          | error msg =>
              simp only [hact]
              by_cases hm : j.attemptsMade < maxAttempts
              · rw [if_pos hm]
                refine ⟨?_, hrest, hc, hf⟩
                intro x hx
                rcases List.mem_append.1 hx with hx2 | hx2
                · exact hw x hx2
                · simp only [List.mem_singleton] at hx2
                  subst hx2; rfl
              · rw [if_neg hm]
                refine ⟨hw, hrest, hc, ?_⟩
                intro x hx
                have hx' := mem_of_mem_trimTo _ _ _ hx
                rcases List.mem_append.1 hx' with hx2 | hx2
                · exact hf x hx2
                · simp only [List.mem_singleton] at hx2
                  subst hx2
                  exact hj10
  | cancel jid =>
      simp only [applyCmd]
      unfold cancelInQueue
      cases hg : getJobInQueue q jid with
      | none => exact ⟨hw, ha, hc, hf⟩
      | some x =>
          simp only [hg]
          by_cases hac : q.active.any (fun y => y.jobId == jid) = true
          · simp only [hac, if_true]
            exact ⟨hw, ha, hc, hf⟩
          · simp only [hac, if_false]
            refine ⟨?_, ha, ?_, ?_⟩
            · intro y hy
              exact hw y (List.mem_of_mem_filter hy)
            · intro y hy
              exact hc y (List.mem_of_mem_filter hy)
            · intro y hy
              exact hf y (List.mem_of_mem_filter hy)

theorem runQ_progressInv (cmds : List QCmd) (q : SourceQueue)
    (h : progressInv q) : progressInv ((runQ q cmds).1) := by
  induction cmds generalizing q with
  | nil => exact h
  | cons c cs ih =>
      unfold runQ
      exact ih _ (applyCmd_progressInv q c h)

theorem progressInv_empty (sid : String) :
    progressInv (emptySourceQueue sid) := by
  refine ⟨?_, ?_, ?_, ?_⟩ <;> intro j hj <;> cases hj

theorem applyCmd_noJob (q : SourceQueue) (c : QCmd) (jid : String)
    (hc : enqueuesJob c jid = false)
    (hw : noJob q.waiting jid) (ha : noJob q.active jid) :
    noJob ((applyCmd q c).1).waiting jid ∧
      noJob ((applyCmd q c).1).active jid := by
  cases c with
  | enqueue j' ps u p now =>
      simp only [applyCmd, enqueueJob]
      constructor
      · intro x hx
        rcases List.mem_append.1 hx with hx | hx
        · exact hw x hx
        · simp only [List.mem_singleton] at hx
          subst hx
          simp only [enqueuesJob, beq_eq_false_iff_ne] at hc
          exact hc
      · exact ha
  | start now =>
      simp only [applyCmd]
      unfold startNext
      by_cases hlt : q.active.length < concurrency
      · rw [if_pos hlt]
        cases hpick : pickNext now q.waiting with
        | none => exact ⟨hw, ha⟩
        | some j =>
            simp only [hpick]
            have hjmem : j ∈ q.waiting := (pickNext_min now q.waiting j hpick).1
            constructor
            · intro x hx
              exact hw x (List.mem_of_mem_filter hx)
            · intro x hx
              rcases List.mem_append.1 hx with hx | hx
              · exact ha x hx
              · simp only [List.mem_singleton] at hx
                subst hx
                exact hw j hjmem
      · rw [if_neg hlt]; exact ⟨hw, ha⟩
  | finish outcome now =>
      simp only [applyCmd]
      unfold finishActive
      cases hact : q.active with
      | nil =>
          simp only [hact]
          exact ⟨hw, by intro x hx; cases hx⟩
      | cons j rest =>
          have hjne : j.jobId ≠ jid := by
            apply ha
            rw [hact]
            exact List.mem_cons_self j rest
          have hrest : noJob rest jid := by
            intro x hx
            apply ha
            rw [hact]
            exact List.mem_cons_of_mem j hx
          cases outcome with
          | ok res =>
              simp only [hact]
              exact ⟨hw, hrest⟩
          | error msg =>
              simp only [hact]
              by_cases hm : j.attemptsMade < maxAttempts
              · rw [if_pos hm]
                constructor
                · intro x hx
                  rcases List.mem_append.1 hx with hx | hx
                  · exact hw x hx
                  · simp only [List.mem_singleton] at hx
                    subst hx
                    exact hjne
                · exact hrest
              · rw [if_neg hm]
                exact ⟨hw, hrest⟩
  | cancel jid' =>
      simp only [applyCmd]
      unfold cancelInQueue
      cases hg : getJobInQueue q jid' with
      | none => exact ⟨hw, ha⟩
      | some x =>
          simp only [hg]
          by_cases hac : q.active.any (fun y => y.jobId == jid') = true
          · simp only [hac, if_true]; exact ⟨hw, ha⟩
          · simp only [hac, if_false]
            refine ⟨?_, ha⟩
            intro y hy
            exact hw y (List.mem_of_mem_filter hy)

theorem runQ_noJob : ∀ (cmds : List QCmd) (q : SourceQueue) (jid : String),
    (∀ c ∈ cmds, enqueuesJob c jid = false) →
    noJob q.waiting jid → noJob q.active jid →
    noJob ((runQ q cmds).1).waiting jid ∧
      noJob ((runQ q cmds).1).active jid
  | [], _, _, _, hw, ha => ⟨hw, ha⟩
  | c :: cs, q, jid, hc, hw, ha => by
      unfold runQ
      obtain ⟨h1, h2⟩ :=
        applyCmd_noJob q c jid (hc c (List.mem_cons_self c cs)) hw ha
      exact runQ_noJob cs (applyCmd q c).1 jid
        (fun d hd => hc d (List.mem_cons_of_mem c hd)) h1 h2

/-- C2: a job whose orchestrator call rejects on the first two attempts
and resolves on the third (default maxAttempts 3) ends COMPLETED with
`attemptsMade = 3`; after the k-th failed attempt the job re-enters the
waiting partition with progress reset to 0 and becomes eligible only at
the failure time plus the exponential backoff delay
`backoffBaseDelay * 2 ^ (attemptsMade - 1)` (base 5000 ms). -/
theorem retry_twice_then_success_completed (sid jid ps : String)
    (u : Option String) (p : Nat)
    (e1 e2 : String) (res : ExtractionOutcome)
    (t0 t1 t2 t3 t4 t5 t6 : Nat)
    (h01 : t0 ≤ t1)
    (h23 : t2 + backoffBaseDelay * 2 ^ (1 - 1) ≤ t3)
    (h45 : t4 + backoffBaseDelay * 2 ^ (2 - 1) ≤ t5) :
    ∃ j1 j2 jc : QueueJob,
      ((runQ (emptySourceQueue sid)
          [QCmd.enqueue jid ps u p t0, QCmd.start t1,
           QCmd.finish (Except.error e1) t2]).1.waiting = [j1] ∧
        j1.attemptsMade = 1 ∧ j1.progress = 0 ∧
        j1.availableAt = t2 + backoffBaseDelay * 2 ^ (j1.attemptsMade - 1)) ∧
      ((runQ (emptySourceQueue sid)
          [QCmd.enqueue jid ps u p t0, QCmd.start t1,
           QCmd.finish (Except.error e1) t2, QCmd.start t3,
           QCmd.finish (Except.error e2) t4]).1.waiting = [j2] ∧
        j2.attemptsMade = 2 ∧ j2.progress = 0 ∧
        j2.availableAt = t4 + backoffBaseDelay * 2 ^ (j2.attemptsMade - 1)) ∧
      ((runQ (emptySourceQueue sid)
          [QCmd.enqueue jid ps u p t0, QCmd.start t1,
           QCmd.finish (Except.error e1) t2, QCmd.start t3,
           QCmd.finish (Except.error e2) t4, QCmd.start t5,
           QCmd.finish (Except.ok res) t6]).1 =
        { sourceId := sid, waiting := [], active := [], completed := [jc],
          failed := [], nextIndex := 1 } ∧
        jc.jobId = jid ∧ jc.attemptsMade = 3 ∧ jc.progress = 100) := by
  have h23' : t2 + 5000 ≤ t3 := by simpa [backoffBaseDelay] using h23
  have h45' : t4 + 10000 ≤ t5 := by simpa [backoffBaseDelay] using h45
  refine ⟨{ jobId := jid
            sourceId := sid
            parameters := ps
            userId := u
            priority := p
            index := 0
            availableAt := t2 + 5000
            progress := 0
            attemptsMade := 1
            failedReason := none
            returnvalue := none
            timestamp := t0
            processedOn := some t1
            finishedOn := none },
    { jobId := jid
      sourceId := sid
      parameters := ps
      userId := u
      priority := p
      index := 0
      availableAt := t4 + 10000
      progress := 0
      attemptsMade := 2
      failedReason := none
      returnvalue := none
      timestamp := t0
      processedOn := some t1
      finishedOn := none },
    { jobId := jid
      sourceId := sid
      parameters := ps
      userId := u
      priority := p
      index := 0
      availableAt := t4 + 10000
      progress := 100
      attemptsMade := 3
      failedReason := none
      returnvalue := some { success := true
                            jobId := res.jobId
                            documentsCount :=
                              (res.result.map (fun r => r.documents.length)).getD 0
                            extractionTime :=
                              (res.result.map (fun r => r.extractionTime)).getD 0 }
      timestamp := t0
      processedOn := some t1
      finishedOn := some t6 },
    ?_, ?_, ?_⟩
  · refine ⟨?_, rfl, rfl, by simp [backoffBaseDelay]⟩
    simp [runQ, applyCmd, enqueueJob, startNext, finishActive, pickNext,
      eligible, concurrency, maxAttempts, backoffBaseDelay, h01,
      emptySourceQueue, better]
  · refine ⟨?_, rfl, rfl, by simp [backoffBaseDelay]⟩
    simp [runQ, applyCmd, enqueueJob, startNext, finishActive, pickNext,
      eligible, concurrency, maxAttempts, backoffBaseDelay, h01, h23',
      emptySourceQueue, better]
  · refine ⟨?_, rfl, rfl, rfl⟩
    simp [runQ, applyCmd, enqueueJob, startNext, finishActive, pickNext,
      eligible, concurrency, maxAttempts, backoffBaseDelay, removeOnComplete,
      trimTo, h01, h23', h45', emptySourceQueue, better]

/-- C2 witness: concrete instance (failures at times 2 and 6001, retries
eligible at 6000 and 20000, success at 20001) ending COMPLETED with
`attemptsMade = 3`. -/
theorem retry_twice_then_success_completed_witness :
    (0 : Nat) ≤ 1 ∧ 2 + backoffBaseDelay * 2 ^ (1 - 1) ≤ 6000 ∧
      6001 + backoffBaseDelay * 2 ^ (2 - 1) ≤ 20000 ∧
      ((runQ (emptySourceQueue "css")
        [QCmd.enqueue "C2J" "params" (some "u2") 0 0, QCmd.start 1,
         QCmd.finish (Except.error "err1") 2, QCmd.start 6000,
         QCmd.finish (Except.error "err2") 6001, QCmd.start 20000,
         QCmd.finish (Except.ok { jobId := "C2J", result := none })
           20001]).1.completed.map (fun j => j.attemptsMade) = [3]) := by
  obtain ⟨j1, j2, jc, hA, hB, hC⟩ :=
    retry_twice_then_success_completed "css" "C2J" "params" (some "u2") 0
      "err1" "err2" { jobId := "C2J", result := none } 0 1 2 6000 6001 20000
      20001 (by decide) (by decide) (by decide)
  refine ⟨by decide, by decide, by decide, ?_⟩
  rw [hC.1]
  simp [hC.2.2.1]

/-- C1: the per-source worker is created with `concurrency: 1`, so from
the empty queue of any source, after any sequence of submissions,
dequeues, completions, failures and cancellations, at most one job of
that source occupies the active (RUNNING) partition at any instant. -/
theorem per_source_active_at_most_one (sid : String) (cmds : List QCmd) :
    ((runQ (emptySourceQueue sid) cmds).1).active.length ≤ 1 := by
  have h := runQ_active_le cmds (emptySourceQueue sid)
    (by simp [emptySourceQueue, concurrency])
  simpa [concurrency] using h

/-- C3: a job whose orchestrator call rejects on all 3 attempts ends in
the failed partition with `attemptsMade = 3` and `failedReason` equal to
the last rejection's message, and no continuation that does not submit
the jobId anew ever brings it back to the waiting or active partition
(no further execution attempt is made). -/
theorem three_rejections_terminal_failed (sid jid ps : String)
    (u : Option String) (p : Nat) (e1 e2 e3 : String)
    (t0 t1 t2 t3 t4 t5 t6 : Nat)
    (h01 : t0 ≤ t1)
    (h23 : t2 + backoffBaseDelay * 2 ^ (1 - 1) ≤ t3)
    (h45 : t4 + backoffBaseDelay * 2 ^ (2 - 1) ≤ t5)
    (cont : List QCmd) (hcont : ∀ c ∈ cont, enqueuesJob c jid = false) :
    ∃ jf : QueueJob,
      (runQ (emptySourceQueue sid)
        [QCmd.enqueue jid ps u p t0, QCmd.start t1,
         QCmd.finish (Except.error e1) t2, QCmd.start t3,
         QCmd.finish (Except.error e2) t4, QCmd.start t5,
         QCmd.finish (Except.error e3) t6]).1 =
        { sourceId := sid, waiting := [], active := [], completed := [],
          failed := [jf], nextIndex := 1 } ∧
      jf.jobId = jid ∧ jf.attemptsMade = 3 ∧ jf.failedReason = some e3 ∧
      noJob ((runQ ((runQ (emptySourceQueue sid)
        [QCmd.enqueue jid ps u p t0, QCmd.start t1,
         QCmd.finish (Except.error e1) t2, QCmd.start t3,
         QCmd.finish (Except.error e2) t4, QCmd.start t5,
         QCmd.finish (Except.error e3) t6]).1) cont).1).waiting jid ∧
      noJob ((runQ ((runQ (emptySourceQueue sid)
        [QCmd.enqueue jid ps u p t0, QCmd.start t1,
         QCmd.finish (Except.error e1) t2, QCmd.start t3,
         QCmd.finish (Except.error e2) t4, QCmd.start t5,
         QCmd.finish (Except.error e3) t6]).1) cont).1).active jid := by
  have h23' : t2 + 5000 ≤ t3 := by simpa [backoffBaseDelay] using h23
  have h45' : t4 + 10000 ≤ t5 := by simpa [backoffBaseDelay] using h45
  have hstate : (runQ (emptySourceQueue sid)
        [QCmd.enqueue jid ps u p t0, QCmd.start t1,
         QCmd.finish (Except.error e1) t2, QCmd.start t3,
         QCmd.finish (Except.error e2) t4, QCmd.start t5,
         QCmd.finish (Except.error e3) t6]).1 =
      { sourceId := sid, waiting := [], active := [], completed := [],
        failed := [{ jobId := jid
                     sourceId := sid
                     parameters := ps
                     userId := u
                     priority := p
                     index := 0
                     availableAt := t4 + 10000
                     progress := 10
                     attemptsMade := 3
                     failedReason := some e3
                     returnvalue := none
                     timestamp := t0
                     processedOn := some t1
                     finishedOn := some t6 }], nextIndex := 1 } := by
    simp [runQ, applyCmd, enqueueJob, startNext, finishActive, pickNext,
      eligible, concurrency, maxAttempts, backoffBaseDelay, removeOnFail,
      trimTo, h01, h23', h45', emptySourceQueue, better]
  refine ⟨{ jobId := jid
            sourceId := sid
            parameters := ps
            userId := u
            priority := p
            index := 0
            availableAt := t4 + 10000
            progress := 10
            attemptsMade := 3
            failedReason := some e3
            returnvalue := none
            timestamp := t0
            processedOn := some t1
            finishedOn := some t6 }, hstate, rfl, rfl, rfl, ?_, ?_⟩
  · rw [hstate]
    exact (runQ_noJob cont _ jid hcont
      (fun x hx => absurd hx (List.not_mem_nil x))
      (fun x hx => absurd hx (List.not_mem_nil x))).1
  · rw [hstate]
    exact (runQ_noJob cont _ jid hcont
      (fun x hx => absurd hx (List.not_mem_nil x))
      (fun x hx => absurd hx (List.not_mem_nil x))).2

/-- C3 witness: concrete instance in which all three attempts reject,
followed by a further dequeue poll that finds nothing. -/
theorem three_rejections_terminal_failed_witness :
    (0 : Nat) ≤ 1 ∧ 2 + backoffBaseDelay * 2 ^ (1 - 1) ≤ 6000 ∧
      6001 + backoffBaseDelay * 2 ^ (2 - 1) ≤ 20000 ∧
      (∀ c ∈ [QCmd.start 30000], enqueuesJob c "C3J" = false) ∧
      ((runQ (emptySourceQueue "css")
        [QCmd.enqueue "C3J" "params" (some "u3") 0 0, QCmd.start 1,
         QCmd.finish (Except.error "e1") 2, QCmd.start 6000,
         QCmd.finish (Except.error "e2") 6001, QCmd.start 20000,
         QCmd.finish (Except.error "e3") 20001]).1.failed.map
          (fun j => (j.attemptsMade, j.failedReason)) = [(3, some "e3")]) := by
  obtain ⟨jf, hA, hB, hC, hD, hE, hF⟩ :=
    three_rejections_terminal_failed "css" "C3J" "params" (some "u3") 0
      "e1" "e2" "e3" 0 1 2 6000 6001 20000 20001 (by decide) (by decide)
      (by decide) [QCmd.start 30000] (by decide)
  refine ⟨by decide, by decide, by decide, by decide, ?_⟩
  rw [hA]
  simp [hC, hD]

/-- C4 (counterexample): a job with a known userId whose first
orchestrator call rejects while two attempts remain (it is re-queued,
not terminally failed) nevertheless causes exactly one FAILED-status
event to be published to the user's stream — the catch block of
`processScrapingJob` notifies unconditionally, so the claim that no
FAILED event is published for a transient attempt is false. -/
theorem transient_failure_failed_event_cex :
    (transientFailureRun.2.filter
      (fun e => e.status == JobStatus.FAILED)).length = 1 ∧
    transientFailureRun.1.failed = [] ∧
    transientFailureRun.1.waiting.map (fun j => j.attemptsMade) = [1] := by
  decide

/-- C4 (amended): on every failed attempt of a job with a known userId —
transient or terminal alike — exactly one FAILED-status event with
progress 0 and message `Error: …` is published to the user's stream;
the retry loop is therefore visible to the user through these FAILED
notifications, not only through `attemptsMade`. -/
theorem failed_event_on_every_failed_attempt (q : SourceQueue)
    (j : QueueJob) (rest : List QueueJob) (u msg : String) (now : Nat)
    (ha : q.active = j :: rest) (hu : j.userId = some u) :
    (finishActive q (Except.error msg) now).2 =
      [{ userId := u, eventType := "scraping_progress", jobId := j.jobId,
         status := JobStatus.FAILED, progress := 0,
         message := "Error: " ++ msg, sourceId := j.sourceId }] := by
  unfold finishActive
  simp only [ha]
  by_cases hm : j.attemptsMade < maxAttempts
  · rw [if_pos hm]
    simp [failedEvents, hu]
  · rw [if_neg hm]
    simp [failedEvents, hu]

/-- C4 witness: the FAILED notification fired for a mid-flight job with
two attempts left. -/
theorem failed_event_on_every_failed_attempt_witness :
    activeQueue.active = activeJob :: [] ∧
    activeJob.userId = some "u4" ∧
    (finishActive activeQueue (Except.error "boom") 5).2 =
      [{ userId := "u4", eventType := "scraping_progress", jobId := "J4a",
         status := JobStatus.FAILED, progress := 0,
         message := "Error: " ++ "boom", sourceId := "css" }] := by
  refine ⟨rfl, rfl, ?_⟩
  exact failed_event_on_every_failed_attempt activeQueue activeJob []
    "u4" "boom" 5 rfl rfl

/-- C5 (counterexample): with J1 submitted at priority 0 and J2 at
priority 5, both waiting and eligible, the worker dequeues J1 and J2
stays waiting — not J2 first as the claim expects: under the BullMQ
`priority` option a lower number is a higher priority, and priority 0
(the default) is served before any prioritized job. -/
theorem priority_scenario_cex :
    ((startNext scenarioQueue 100).1.active.map (fun j => j.jobId)
      = ["J1"]) ∧
    ((startNext scenarioQueue 100).1.waiting.map (fun j => j.jobId)
      = ["J2"]) := by
  decide

/-- C5 (amended): within one source's waiting partition jobs are dequeued
in ascending order of the priority value — priority 0 (the default)
first, then larger numbers — with FIFO (insertion order) tie-breaking;
hence in the scenario J1 (priority 0) is dequeued before J2
(priority 5). -/
theorem dequeue_order_lex_priority_index (now : Nat) (q : SourceQueue)
    (j : QueueJob) (h : pickNext now q.waiting = some j) :
    j ∈ q.waiting ∧ eligible now j = true ∧
      ∀ x ∈ q.waiting, eligible now x = true →
        j.priority < x.priority ∨
          (j.priority = x.priority ∧ j.index ≤ x.index) := by
  obtain ⟨h1, h2, h3⟩ := pickNext_min now q.waiting j h
  refine ⟨h1, h2, ?_⟩
  intro x hx he
  have h4 := h3 x hx he
  rw [rankLt_eq_false_iff] at h4
  omega

/-- C5 witness: in the two-job scenario the dequeued job is J1. -/
theorem dequeue_order_lex_priority_index_witness :
    pickNext 100 scenarioQueue.waiting = some scenarioJ1 ∧
    scenarioJ1 ∈ scenarioQueue.waiting ∧
    eligible 100 scenarioJ1 = true := by
  refine ⟨by decide, ?_, ?_⟩
  · exact (dequeue_order_lex_priority_index 100 scenarioQueue scenarioJ1
      (by decide)).1
  · exact (dequeue_order_lex_priority_index 100 scenarioQueue scenarioJ1
      (by decide)).2.1

/-- C7: in every state reachable from the empty queue of a source, every
job's progress lies in [0,100]; every job in the waiting partition
(fresh submissions and backoff retries alike — the retry re-insertion
resets progress to 0) has progress 0; and a job's progress equals 100
exactly when the job is in the completed partition (a failed job never
carries progress 100, every completed job carries exactly 100). -/
theorem progress_bounds_completed_iff (sid : String) (cmds : List QCmd) :
    (∀ j ∈ ((runQ (emptySourceQueue sid) cmds).1).waiting,
      j.progress = 0) ∧
    ∀ j ∈ allJobs ((runQ (emptySourceQueue sid) cmds).1),
      j.progress ≤ 100 ∧
        (j.progress = 100 ↔
          j ∈ ((runQ (emptySourceQueue sid) cmds).1).completed) := by
  obtain ⟨hw, ha, hc, hf⟩ := runQ_progressInv cmds _ (progressInv_empty sid)
  refine ⟨hw, ?_⟩
  intro j hj
  unfold allJobs at hj
  rcases List.mem_append.1 hj with hj1 | hjf
  · rcases List.mem_append.1 hj1 with hj2 | hjc
    · rcases List.mem_append.1 hj2 with hjw | hja
      · have h0 := hw j hjw
        refine ⟨by omega, ?_, fun hcj => hc j hcj⟩
        intro h100
        rw [h0] at h100
        exact absurd h100 (by decide)
      · have h10 := ha j hja
        refine ⟨by omega, ?_, fun hcj => hc j hcj⟩
        intro h100
        rw [h10] at h100
        exact absurd h100 (by decide)
    · have h100 := hc j hjc
      exact ⟨by omega, fun _ => hjc, fun _ => h100⟩
  · have h10 := hf j hjf
    refine ⟨by omega, ?_, fun hcj => hc j hcj⟩
    intro h100
    rw [h10] at h100
    exact absurd h100 (by decide)

theorem hasJob_false_iff (q : SourceQueue) (jid : String) :
    hasJob q jid = false ↔ getJobInQueue q jid = none := by
  unfold hasJob
  cases h : getJobInQueue q jid <;> simp [h]

theorem find?_filter_ne (l : List QueueJob) (jid : String) :
    (l.filter (fun j => j.jobId ≠ jid)).find?
      (fun j => j.jobId == jid) = none := by
  rw [List.find?_eq_none]
  intro x hx
  have hx2 := List.mem_filter.1 hx
  simp only [decide_eq_true_eq] at hx2
  simpa [beq_iff_eq] using hx2.2

theorem find?_eq_none_of_any_false (l : List QueueJob) (jid : String)
    (h : l.any (fun j => j.jobId == jid) = false) :
    l.find? (fun j => j.jobId == jid) = none := by
  rw [List.find?_eq_none]
  intro x hx
  rw [List.any_eq_false] at h
  exact h x hx

theorem getJobInQueue_removeFromQueue (q : SourceQueue) (jid : String)
    (hna : activeHas q jid = false) :
    getJobInQueue (removeFromQueue q jid) jid = none := by
  unfold activeHas at hna
  unfold getJobInQueue removeFromQueue
  simp only [find?_filter_ne, find?_eq_none_of_any_false _ _ hna]
  rfl

theorem cancelInQueue_not_found (q : SourceQueue) (jid : String)
    (h : getJobInQueue q jid = none) :
    cancelInQueue q jid = none := by
  unfold cancelInQueue
  rw [h]

theorem cancelInQueue_found (q : SourceQueue) (jid : String)
    (hh : hasJob q jid = true) (hna : activeHas q jid = false) :
    cancelInQueue q jid = some (removeFromQueue q jid) := by
  unfold cancelInQueue
  obtain ⟨x, hx⟩ := Option.isSome_iff_exists.1 hh
  rw [hx]
  unfold activeHas at hna
  simp [hna]

theorem cancelInQueues_eq_none (jid : String) :
    ∀ qs : List SourceQueue,
    (∀ q ∈ qs, hasJob q jid = false ∨ activeHas q jid = true) →
    cancelInQueues jid qs = none
  | [], _ => rfl
  | q :: qs, h => by
      have hrec := cancelInQueues_eq_none jid qs
        (fun x hx => h x (List.mem_cons_of_mem q hx))
      unfold cancelInQueues
      rcases h q (List.mem_cons_self q qs) with hq | hq
      · rw [cancelInQueue_not_found q jid ((hasJob_false_iff q jid).1 hq),
          hrec]
      · have : cancelInQueue q jid = none := by
          unfold cancelInQueue
          cases hg : getJobInQueue q jid
          · rfl
          · unfold activeHas at hq
            simp [hq]
        rw [this, hrec]

theorem cancelInQueues_found (jid : String) :
    ∀ qs : List SourceQueue,
    (qs.filter (fun q => hasJob q jid)).length ≤ 1 →
    ∀ q ∈ qs, hasJob q jid = true → activeHas q jid = false →
    ∃ qs', cancelInQueues jid qs = some qs' ∧
      ∀ q' ∈ qs', hasJob q' jid = false
  | [], _, q, hq, _, _ => absurd hq (List.not_mem_nil q)
  | h :: t, huniq, q, hq, hh, hna => by
      rcases List.mem_cons.1 hq with rfl | hqt
      · refine ⟨removeFromQueue q jid :: t, ?_, ?_⟩
        · unfold cancelInQueues
          rw [cancelInQueue_found q jid hh hna]
        · intro q' hq'
          rcases List.mem_cons.1 hq' with rfl | hq2
          · exact (hasJob_false_iff _ jid).2
              (getJobInQueue_removeFromQueue q jid hna)
          · have hfil : (t.filter (fun x => hasJob x jid)).length = 0 := by
              simp only [List.filter_cons, hh, if_true,
                List.length_cons] at huniq
              omega
            have hall :=
              List.filter_eq_nil_iff.1 (List.length_eq_zero.1 hfil)
            have hq'f := hall q' hq2
            cases hhb : hasJob q' jid
            · rfl
            · exact absurd hhb hq'f
      · cases hhh : hasJob h jid with
        | false =>
            have huniq' :
                (t.filter (fun x => hasJob x jid)).length ≤ 1 := by
              simpa only [List.filter_cons, hhh, if_false] using huniq
            obtain ⟨qs', h1, h2⟩ :=
              cancelInQueues_found jid t huniq' q hqt hh hna
            refine ⟨h :: qs', ?_, ?_⟩
            · unfold cancelInQueues
              rw [cancelInQueue_not_found h jid
                ((hasJob_false_iff h jid).1 hhh), h1]
            · intro q' hq'
              rcases List.mem_cons.1 hq' with rfl | hq2
              · exact hhh
              · exact h2 q' hq2
        | true =>
            exfalso
            have hmem : q ∈ t.filter (fun x => hasJob x jid) :=
              List.mem_filter.2 ⟨hqt, hh⟩
            have hpos := List.length_pos_of_mem hmem
            simp only [List.filter_cons, hhh, if_true,
              List.length_cons] at huniq
            omega

/-- C6 (counterexample): cancelling an already-COMPLETED job returns
true and deletes the record — a subsequent `getJobStatus` returns null —
because `queue.getJob` finds terminal jobs and `job.remove()` removes
them; the claim that cancellation of a terminal job returns false and
leaves the record unchanged is false. -/
theorem cancel_completed_job_cex :
    (cancelJob completedManager "J6").1 = true ∧
    getJobStatus completedManager "J6" ≠ none ∧
    getJobStatus ((cancelJob completedManager "J6").2) "J6" = none := by
  decide

/-- C6 (amended): `cancelJob` returns false and leaves the state
unchanged when the jobId is found in no queue or only as the locked
active job (whose `remove()` throws); for a job present in exactly one
queue and not active there — waiting, completed and failed jobs alike,
terminal records included — it returns true, removes the record, and a
subsequent `getJobStatus` returns null. -/
theorem cancelJob_characterization (m : ManagerState) (jid : String) :
    ((∀ q ∈ m.queues, hasJob q jid = false ∨ activeHas q jid = true) →
      cancelJob m jid = (false, m)) ∧
    ((m.queues.filter (fun q => hasJob q jid)).length ≤ 1 →
      ∀ q ∈ m.queues, hasJob q jid = true → activeHas q jid = false →
        (cancelJob m jid).1 = true ∧
        getJobStatus ((cancelJob m jid).2) jid = none) := by
  constructor
  · intro h
    unfold cancelJob
    rw [cancelInQueues_eq_none jid m.queues h]
  · intro huniq q hq hh hna
    obtain ⟨qs', h1, h2⟩ :=
      cancelInQueues_found jid m.queues huniq q hq hh hna
    unfold cancelJob
    rw [h1]
    refine ⟨rfl, ?_⟩
    unfold getJobStatus
    rw [List.findSome?_eq_none_iff]
    intro x hx
    rw [(hasJob_false_iff x jid).1 (h2 x hx)]

/-- C6 witness: the completed job J6 is present, not active, and its
cancellation succeeds and erases it. -/
theorem cancelJob_characterization_witness :
    (completedManager.queues.filter
      (fun q => hasJob q "J6")).length ≤ 1 ∧
    completedQueue ∈ completedManager.queues ∧
    hasJob completedQueue "J6" = true ∧
    activeHas completedQueue "J6" = false ∧
    (cancelJob completedManager "J6").1 = true ∧
    getJobStatus ((cancelJob completedManager "J6").2) "J6" = none := by
  refine ⟨by decide, by decide, by decide, by decide, ?_, ?_⟩
  · exact ((cancelJob_characterization completedManager "J6").2 (by decide)
      completedQueue (by decide) (by decide) (by decide)).1
  · exact ((cancelJob_characterization completedManager "J6").2 (by decide)
      completedQueue (by decide) (by decide) (by decide)).2

theorem find?_map_replace (sid : String) (q q' : SourceQueue)
    (hs : q'.sourceId = q.sourceId) :
    ∀ l : List SourceQueue,
    l.find? (fun x => x.sourceId == sid) = some q →
    (l.map (fun x => if x.sourceId == q'.sourceId then q' else x)).find?
      (fun x => x.sourceId == sid) = some q'
  | [], h => by cases h
  | a :: t, h => by
      cases hpa : (a.sourceId == sid) with
      | true =>
          have ha : a = q := by
            have h2 := h
            simp only [List.find?_cons, hpa, if_true] at h2
            injection h2
          subst ha
          have hsid : a.sourceId = sid := beq_iff_eq.1 hpa
          have hcond : (a.sourceId == q'.sourceId) = true :=
            beq_iff_eq.2 (by rw [hs])
          have hq' : (q'.sourceId == sid) = true :=
            beq_iff_eq.2 (by rw [hs, hsid])
          have hmap : (a :: t).map
              (fun x => if x.sourceId == q'.sourceId then q' else x) =
              q' :: t.map
                (fun x => if x.sourceId == q'.sourceId then q' else x) := by
            show (if a.sourceId == q'.sourceId then q' else a) :: _ = _
            rw [if_pos hcond]
          rw [hmap]
          simp [List.find?_cons, hq']
      | false =>
          have ht : t.find? (fun x => x.sourceId == sid) = some q := by
            simpa [List.find?_cons, hpa] using h
          have hq := List.find?_some ht
          have hq2 : q'.sourceId = sid := by
            rw [hs]
            exact beq_iff_eq.1 hq
          have hcond : (a.sourceId == q'.sourceId) = false := by
            cases hb : (a.sourceId == q'.sourceId)
            · rfl
            · exfalso
              have hx : (a.sourceId == sid) = true := by
                rw [← hq2]
                exact hb
              rw [hpa] at hx
              cases hx
          have hmap : (a :: t).map
              (fun x => if x.sourceId == q'.sourceId then q' else x) =
              a :: t.map
                (fun x => if x.sourceId == q'.sourceId then q' else x) := by
            show (if a.sourceId == q'.sourceId then q' else a) :: _ = _
            rw [if_neg (by simp [hcond])]
          rw [hmap]
          have hgoal := find?_map_replace sid q q' hs t ht
          simpa [List.find?_cons, hpa] using hgoal

/-- C8: `addJob` on a sourceId with no configured queue fails
synchronously with the unknown-source error, enqueuing nothing and
emitting no event; on a configured sourceId it returns the generated
jobId, stores the job (with the caller's parameters, userId and
priority, defaulted to 0) in that source's waiting partition, and emits
one PENDING notification exactly when a userId was supplied. -/
theorem addJob_validation_and_enqueue (m : ManagerState) (sid ps : String)
    (u : Option String) (pr : Option Nat) (now : Nat) (rand : String) :
    (findQueue m sid = none →
      addJob m sid ps u pr now rand =
        Except.error ("Cola no encontrada para fuente: " ++ sid)) ∧
    (∀ q, findQueue m sid = some q →
      ∃ m' evs, addJob m sid ps u pr now rand =
          Except.ok (generateJobId sid now rand, m', evs) ∧
        (∃ q', findQueue m' sid = some q' ∧
          ∃ j ∈ q'.waiting, j.jobId = generateJobId sid now rand ∧
            j.parameters = ps ∧ j.userId = u ∧
            j.priority = pr.getD 0 ∧ j.attemptsMade = 0) ∧
        (u = none → evs = []) ∧
        (∀ us, u = some us →
          evs = [{ userId := us, eventType := "scraping_progress",
                   jobId := generateJobId sid now rand,
                   status := JobStatus.PENDING, progress := 0,
                   message := "Trabajo agregado a la cola",
                   sourceId := sid }])) := by
  constructor
  · intro h
    unfold addJob
    rw [h]
  · intro q hq
    unfold addJob
    rw [hq]
    refine ⟨_, _, rfl, ?_, ?_, ?_⟩
    · refine ⟨enqueueJob q (generateJobId sid now rand) ps u
        (pr.getD 0) now, ?_, ?_⟩
      · unfold findQueue setQueue
        exact find?_map_replace sid q
          (enqueueJob q (generateJobId sid now rand) ps u (pr.getD 0) now)
          rfl m.queues hq
      · refine ⟨{ jobId := generateJobId sid now rand
                  sourceId := q.sourceId
                  parameters := ps
                  userId := u
                  priority := pr.getD 0
                  index := q.nextIndex
                  availableAt := now
                  progress := 0
                  attemptsMade := 0
                  failedReason := none
                  returnvalue := none
                  timestamp := now
                  processedOn := none
                  finishedOn := none }, ?_, rfl, rfl, rfl, rfl, rfl⟩
        unfold enqueueJob
        exact List.mem_append.2 (Or.inr (List.mem_singleton.2 rfl))
    · intro hu
      subst hu
      rfl
    · intro us hu
      subst hu
      rfl

/-- C8 witness: submission to an unconfigured source fails with the
unknown-source error; submission to the configured source succeeds. -/
theorem addJob_validation_and_enqueue_witness :
    findQueue oneSourceManager "unknown-src" = none ∧
    addJob oneSourceManager "unknown-src" "params" none none 0 "r1" =
      Except.error ("Cola no encontrada para fuente: " ++ "unknown-src") ∧
    findQueue oneSourceManager "css" = some (emptySourceQueue "css") ∧
    (addJob oneSourceManager "css" "params" (some "u8") (some 5) 7
      "r2").toOption.isSome = true := by
  refine ⟨by decide, ?_, by decide, ?_⟩
  · exact (addJob_validation_and_enqueue oneSourceManager "unknown-src"
      "params" none none 0 "r1").1 (by decide)
  · obtain ⟨m', evs, heq, _, _, _⟩ :=
      (addJob_validation_and_enqueue oneSourceManager "css" "params"
        (some "u8") (some 5) 7 "r2").2 (emptySourceQueue "css") (by decide)
    rw [heq]
    rfl

theorem append_underscore_split :
    ∀ (xs ys u v : List Char), '_' ∉ xs → '_' ∉ ys →
    xs ++ '_' :: u = ys ++ '_' :: v → xs = ys ∧ u = v
  | [], [], u, v, _, _, h => by
      simp only [List.nil_append, List.cons.injEq] at h
      exact ⟨rfl, h.2⟩
  | [], b :: bs, u, v, _, hys, h => by
      simp only [List.nil_append, List.cons_append, List.cons.injEq] at h
      exact absurd (h.1 ▸ List.mem_cons_self b bs) hys
  | a :: as, [], u, v, hxs, _, h => by
      simp only [List.nil_append, List.cons_append, List.cons.injEq] at h
      exact absurd (h.1.symm ▸ List.mem_cons_self a as) hxs
  | a :: as, b :: bs, u, v, hxs, hys, h => by
      simp only [List.cons_append, List.cons.injEq] at h
      obtain ⟨h1, h2⟩ := h
      obtain ⟨ih1, ih2⟩ := append_underscore_split as bs u v
        (fun hx => hxs (List.mem_cons_of_mem a hx))
        (fun hx => hys (List.mem_cons_of_mem b hx)) h2
      exact ⟨by rw [h1, ih1], ih2⟩

/-- C9 (counterexample): two distinct submissions that fall in the same
millisecond with the same `Math.random()` draw receive the same jobId —
`generateJobId` is a function of (sourceId, timestamp, random suffix)
only, so uniqueness is probabilistic, not guaranteed without
coordination. -/
theorem jobId_collision_cex :
    (⟨0, "css", 1700000000000, "k3j9q2x1p"⟩ : Submission) ≠
      ⟨1, "css", 1700000000000, "k3j9q2x1p"⟩ ∧
    submissionJobId ⟨0, "css", 1700000000000, "k3j9q2x1p"⟩ =
      submissionJobId ⟨1, "css", 1700000000000, "k3j9q2x1p"⟩ := by
  constructor
  · decide
  · rfl

/-- C9 (amended): every generated jobId has the shape
`{sourceId}_{timestamp}_{randomSuffix}` — in particular it begins with
the submitting sourceId followed by an underscore — and two submissions
receive distinct jobIds whenever their sourceId, rendered timestamp, or
random suffix differ (rendered timestamps and base-36 random suffixes
are underscore-free); only submissions agreeing on source, millisecond
and random draw collide. -/
theorem jobId_shape_and_conditional_uniqueness (s1 s2 : Submission)
    (hr1 : noUnderscore s1.rand) (hr2 : noUnderscore s2.rand)
    (ht1 : noUnderscore (toString s1.time))
    (ht2 : noUnderscore (toString s2.time)) :
    submissionJobId s1 =
      s1.sourceId ++ "_" ++ toString s1.time ++ "_" ++ s1.rand ∧
    (∃ rest : String, submissionJobId s1 = s1.sourceId ++ "_" ++ rest) ∧
    (submissionJobId s1 = submissionJobId s2 →
      s1.sourceId = s2.sourceId ∧ toString s1.time = toString s2.time ∧
        s1.rand = s2.rand) := by
  refine ⟨rfl, ?_, ?_⟩
  · refine ⟨toString s1.time ++ "_" ++ s1.rand, ?_⟩
    apply String.ext
    simp [submissionJobId, generateJobId, String.data_append]
  · intro h
    have hd := congrArg String.data h
    simp only [submissionJobId, generateJobId, String.data_append,
      show ("_" : String).data = ['_'] from rfl] at hd
    have hrev := congrArg List.reverse hd
    simp only [List.reverse_append, List.reverse_cons, List.reverse_nil,
      List.nil_append, List.append_assoc, List.singleton_append,
      List.cons_append] at hrev
    obtain ⟨e1, e2⟩ := append_underscore_split _ _ _ _
      (by simpa using hr1) (by simpa using hr2) hrev
    obtain ⟨e3, e4⟩ := append_underscore_split _ _ _ _
      (by simpa using ht1) (by simpa using ht2) e2
    refine ⟨?_, ?_, ?_⟩
    · exact String.ext (List.reverse_injective e4)
    · exact String.ext (List.reverse_injective e3)
    · exact String.ext (List.reverse_injective e1)

/-- C9 witness: shape of a concrete jobId, and agreement of the
components when the ids agree. -/
theorem jobId_shape_and_conditional_uniqueness_witness :
    noUnderscore (("k3j9q2x1p" : String)) ∧
    noUnderscore (toString (1700000000000 : Nat)) ∧
    submissionJobId ⟨0, "css", 1700000000000, "k3j9q2x1p"⟩ =
      "css" ++ "_" ++ toString (1700000000000 : Nat) ++ "_" ++
        "k3j9q2x1p" ∧
    ("css" : String) = "css" := by
  refine ⟨by decide, by decide, ?_, ?_⟩
  · exact (jobId_shape_and_conditional_uniqueness
      ⟨0, "css", 1700000000000, "k3j9q2x1p"⟩
      ⟨0, "css", 1700000000000, "k3j9q2x1p"⟩
      (by decide) (by decide) (by decide) (by decide)).1
  · exact ((jobId_shape_and_conditional_uniqueness
      ⟨0, "css", 1700000000000, "k3j9q2x1p"⟩
      ⟨0, "css", 1700000000000, "k3j9q2x1p"⟩
      (by decide) (by decide) (by decide) (by decide)).2.2 rfl).1

/-- C10: `getQueueStats` returns one entry per configured source for
every manager state (the per-source try/catch makes it total — it never
throws): a backend failure while counting one source is captured as that
source's error entry, while every other source still reports its
waiting/active/completed/failed counts with `total` the sum of the
four. -/
theorem getQueueStats_total_isolated (redisFail : String → Option String)
    (m : ManagerState) :
    ((getQueueStats redisFail m).map Prod.fst =
      m.queues.map (fun q => q.sourceId)) ∧
    ∀ q ∈ m.queues,
      (redisFail q.sourceId = none →
        (q.sourceId, StatEntry.counts q.waiting.length q.active.length
          q.completed.length q.failed.length
          (q.waiting.length + q.active.length + q.completed.length +
            q.failed.length)) ∈ getQueueStats redisFail m) ∧
      (∀ msg, redisFail q.sourceId = some msg →
        (q.sourceId, StatEntry.failure msg) ∈
          getQueueStats redisFail m) := by
  constructor
  · unfold getQueueStats
    rw [List.map_map]
    rfl
  · intro q hq
    constructor
    · intro hnone
      have hmem : (q.sourceId, statsForSource redisFail q) ∈
          getQueueStats redisFail m := List.mem_map_of_mem _ hq
      simpa only [statsForSource, hnone] using hmem
    · intro msg hmsg
      have hmem : (q.sourceId, statsForSource redisFail q) ∈
          getQueueStats redisFail m := List.mem_map_of_mem _ hq
      simpa only [statsForSource, hmsg] using hmem

/-- C10 witness: with a backend that throws only for source `b`, source
`a` still reports its counts and `b` reports the captured message. -/
theorem getQueueStats_total_isolated_witness :
    failOnB "a" = none ∧ failOnB "b" = some "ECONNREFUSED" ∧
    emptySourceQueue "a" ∈ twoSourceManager.queues ∧
    emptySourceQueue "b" ∈ twoSourceManager.queues ∧
    ("a", StatEntry.counts 0 0 0 0 0) ∈
      getQueueStats failOnB twoSourceManager ∧
    ("b", StatEntry.failure "ECONNREFUSED") ∈
      getQueueStats failOnB twoSourceManager := by
  refine ⟨by decide, by decide, by decide, by decide, ?_, ?_⟩
  · exact ((getQueueStats_total_isolated failOnB twoSourceManager).2
      (emptySourceQueue "a") (by decide)).1 (by decide)
  · exact ((getQueueStats_total_isolated failOnB twoSourceManager).2
      (emptySourceQueue "b") (by decide)).2 "ECONNREFUSED" (by decide)

/-- C7 witness: a freshly submitted waiting job has progress 0, which is
within bounds and not 100. -/
theorem progress_bounds_completed_iff_witness :
    sampleJob ∈ ((runQ (emptySourceQueue "css") sampleCmds).1).waiting ∧
    sampleJob.progress = 0 ∧
    sampleJob ∈ allJobs ((runQ (emptySourceQueue "css") sampleCmds).1) ∧
    sampleJob.progress ≤ 100 := by
  refine ⟨by decide, ?_, by decide, ?_⟩
  · exact (progress_bounds_completed_iff "css" sampleCmds).1 sampleJob
      (by decide)
  · exact ((progress_bounds_completed_iff "css" sampleCmds).2 sampleJob
      (by decide)).1

end JuridicaNews
